import Mathlib

/-
Verification of the target-vendit sink logic (src/target_vendit/sinks.py)
against its natural-language specification.

The development shallowly embeds the two sink classes `PrePurchaseOrders`
and `BuyOrders`:
  * Python `datetime` values are modelled by the `DateTime` structure
    (calendar fields plus microseconds); an attached timezone is an
    `Option Int` (offset in minutes), mirroring `tzinfo` availability.
  * JSON-ish record values are modelled by the inductive `Value`;
    records are association lists `List (String × Value)` with Python's
    `dict.get` semantics (missing key ↦ `None`, i.e. `Value.vNull`).
  * Fallible Python operations (uncaught exceptions) are modelled with
    `Except String`.  Exceptions the source catches are handled exactly
    where the source catches them.
  * `datetime.utcnow()` is modelled by an explicit `now : DateTime`
    parameter threaded through the functions that may call it.
  * `datetime.fromisoformat` is modelled by `parseIso` following the
    strict CPython grammar `YYYY-MM-DD[<sep>HH[:MM[:SS[.fff|.ffffff]]]]
    [±HH:MM]` with calendar validation; offsets with a seconds component
    are not modelled.  `json.loads` is modelled by `jsonLoads` covering
    objects, arrays, strings (with the common escapes), integer numerals,
    `true`/`false`/`null`; non-integer numerals and `\u` escapes are not
    modelled.
-/

namespace TargetVendit

/-- Calendar/clock fields of a Python `datetime` value (no tzinfo).
`usec` is the microsecond field (0..999999). -/
structure DateTime where
  year : Nat
  month : Nat
  day : Nat
  hour : Nat
  minute : Nat
  second : Nat
  usec : Nat
deriving DecidableEq, Repr

/-- Gregorian leap-year test, as used by Python's `calendar`/`datetime`. -/
def isLeap (y : Nat) : Bool :=
  (y % 4 == 0 && y % 100 != 0) || (y % 400 == 0)

/-- Number of days in a month (Python `calendar.monthrange` semantics). -/
def daysInMonth (y m : Nat) : Nat :=
  if m == 2 then (if isLeap y then 29 else 28)
  else if m == 4 || m == 6 || m == 9 || m == 11 then 30
  else 31

/-- Python `datetime` field validity: the invariant every constructed
`datetime` object satisfies (MINYEAR = 1, MAXYEAR = 9999). -/
def validDT (d : DateTime) : Bool :=
  1 ≤ d.year && d.year ≤ 9999 &&
  1 ≤ d.month && d.month ≤ 12 &&
  1 ≤ d.day && d.day ≤ daysInMonth d.year d.month &&
  d.hour ≤ 23 && d.minute ≤ 59 && d.second ≤ 59 && d.usec ≤ 999999

/-- The decimal digit character for `n % 10`. -/
def dchar (n : Nat) : Char := Char.ofNat (48 + n % 10)

/-- Zero-padded 2-digit decimal rendering (`%02d` for values below 100). -/
def pad2 (n : Nat) : List Char := [dchar (n / 10), dchar n]

/-- Zero-padded 3-digit decimal rendering (`%03d` for values below 1000). -/
def pad3 (n : Nat) : List Char := [dchar (n / 100), dchar (n / 10), dchar n]

/-- Zero-padded 4-digit decimal rendering (`%04d` for values below 10000;
Python years never exceed 9999). -/
def pad4 (n : Nat) : List Char :=
  [dchar (n / 1000), dchar (n / 100), dchar (n / 10), dchar n]

/-- `datetime.isoformat(timespec='milliseconds')` on a naive value:
`YYYY-MM-DDTHH:MM:SS.mmm` (microseconds truncated to milliseconds). -/
def fmtNaiveChars (d : DateTime) : List Char :=
  pad4 d.year ++ '-' :: pad2 d.month ++ '-' :: pad2 d.day ++
  'T' :: pad2 d.hour ++ ':' :: pad2 d.minute ++ ':' :: pad2 d.second ++
  '.' :: pad3 (d.usec / 1000)

/-- The `±HH:MM` utcoffset suffix `isoformat` appends to an aware value. -/
def offsetChars (off : Int) : List Char :=
  (if off < 0 then '-' else '+') :: pad2 (off.natAbs / 60) ++ ':' :: pad2 (off.natAbs % 60)

/-- `dt.isoformat(timespec='milliseconds') + "Z"` where `dt` carries the
given optional tzinfo (the source appends `"Z"` textually, keeping any
embedded offset). -/
def fmtAwareZ (d : DateTime) (tz : Option Int) : String :=
  ⟨fmtNaiveChars d ++ (match tz with | none => [] | some off => offsetChars off) ++ ['Z']⟩

/-- `dt.isoformat(timespec='milliseconds') + "Z"` on a naive value. -/
def fmtZ (d : DateTime) : String := ⟨fmtNaiveChars d ++ ['Z']⟩

/-- The previous calendar day (`none` iff it would go below year 1,
where Python raises `OverflowError`). -/
def prevDay (d : DateTime) : Option DateTime :=
  if 2 ≤ d.day then some { d with day := d.day - 1 }
  else if 2 ≤ d.month then
    some { d with month := d.month - 1, day := daysInMonth d.year (d.month - 1) }
  else if 2 ≤ d.year then
    some { d with year := d.year - 1, month := 12, day := 31 }
  else none

/-- The next calendar day (`none` iff it would go above year 9999,
where Python raises `OverflowError`). -/
def nextDay (d : DateTime) : Option DateTime :=
  if d.day < daysInMonth d.year d.month then some { d with day := d.day + 1 }
  else if d.month < 12 then some { d with month := d.month + 1, day := 1 }
  else if d.year ≤ 9998 then some { d with year := d.year + 1, month := 1, day := 1 }
  else none

/-- `dt.astimezone(timezone.utc).replace(tzinfo=None)` for an aware value
whose utcoffset is `off` minutes (|off| < 1440): subtract the offset,
borrowing or carrying at most one calendar day.  `none` models the
`OverflowError` Python raises when the result leaves years 1..9999. -/
def astimezoneUTC (d : DateTime) (off : Int) : Option DateTime :=
  let t : Int := (d.hour * 60 + d.minute : Nat) - off
  if 0 ≤ t ∧ t < 1440 then
    some { d with hour := t.toNat / 60, minute := t.toNat % 60 }
  else if t < 0 then
    match prevDay d with
    | none => none
    | some d' =>
      let t' := (t + 1440).toNat
      some { d' with hour := t' / 60, minute := t' % 60 }
  else
    match nextDay d with
    | none => none
    | some d' =>
      let t' := (t - 1440).toNat
      some { d' with hour := t' / 60, minute := t' % 60 }

/-- One decimal digit. -/
def readDig (c : Char) : Option Nat :=
  if c.isDigit then some (c.toNat - 48) else none

/-- Exactly two decimal digits. -/
def read2 : List Char → Option (Nat × List Char)
  | c1 :: c2 :: rest =>
    match readDig c1, readDig c2 with
    | some a, some b => some (a * 10 + b, rest)
    | _, _ => none
  | _ => none

/-- Exactly three decimal digits. -/
def read3 : List Char → Option (Nat × List Char)
  | c1 :: c2 :: c3 :: rest =>
    match readDig c1, readDig c2, readDig c3 with
    | some a, some b, some c => some (a * 100 + b * 10 + c, rest)
    | _, _, _ => none
  | _ => none

/-- Exactly four decimal digits. -/
def read4 : List Char → Option (Nat × List Char)
  | c1 :: c2 :: c3 :: c4 :: rest =>
    match readDig c1, readDig c2, readDig c3, readDig c4 with
    | some a, some b, some c, some d => some (a * 1000 + b * 100 + c * 10 + d, rest)
    | _, _, _, _ => none
  | _ => none

/-- Parse the optional trailing utcoffset `±HH:MM` (must consume the whole
remaining input, as `fromisoformat` rejects trailing junk). -/
def parseOff : List Char → Option (Option Int)
  | [] => some none
  | '+' :: r =>
    match read2 r with
    | some (oh, ':' :: r2) =>
      match read2 r2 with
      | some (om, []) => some (some ((oh * 60 + om : Nat) : Int))
      | _ => none
    | _ => none
  | '-' :: r =>
    match read2 r with
    | some (oh, ':' :: r2) =>
      match read2 r2 with
      | some (om, []) => some (some (-((oh * 60 + om : Nat) : Int)))
      | _ => none
    | _ => none
  | _ => none

/-- Parse the fractional-seconds part (exactly 3 or 6 digits, as CPython's
strict `fromisoformat` requires) followed by the optional offset; returns
microseconds. -/
def parseFrac (l : List Char) : Option (Nat × Option Int) :=
  match read3 l with
  | some (f3, rest) =>
    match rest with
    | c :: _ =>
      if c.isDigit then
        match read3 rest with
        | some (f6, rest2) =>
          match parseOff rest2 with
          | some tz => some (f3 * 1000 + f6, tz)
          | none => none
        | none => none
      else
        match parseOff rest with
        | some tz => some (f3 * 1000, tz)
        | none => none
    | [] => some (f3 * 1000, none)
  | none => none

/-- Parse `HH[:MM[:SS[.fff|.ffffff]]]` plus the optional offset. -/
def parseTime (l : List Char) : Option (Nat × Nat × Nat × Nat × Option Int) :=
  match read2 l with
  | none => none
  | some (h, rest) =>
    match rest with
    | ':' :: r2 =>
      match read2 r2 with
      | none => none
      | some (mi, rest2) =>
        match rest2 with
        | ':' :: r3 =>
          match read2 r3 with
          | none => none
          | some (s, rest3) =>
            match rest3 with
            | '.' :: r4 =>
              match parseFrac r4 with
              | some (us, tz) => some (h, mi, s, us, tz)
              | none => none
            | _ =>
              match parseOff rest3 with
              | some tz => some (h, mi, s, 0, tz)
              | none => none
        | _ =>
          match parseOff rest2 with
          | some tz => some (h, mi, 0, 0, tz)
          | none => none
    | _ =>
      match parseOff rest with
      | some tz => some (h, 0, 0, 0, tz)
      | none => none

/-- Component validation performed by `fromisoformat` at construction
time: calendar-valid fields, and an offset strictly shorter than one day. -/
def checkedResult (d : DateTime) (tz : Option Int) : Option (DateTime × Option Int) :=
  let offOk := match tz with
    | none => true
    | some o => o.natAbs ≤ 1439
  if validDT d && offOk then some (d, tz) else none

/-- Model of `datetime.fromisoformat` (strict CPython grammar):
`YYYY-MM-DD` optionally followed by one arbitrary separator character and
`HH[:MM[:SS[.fff|.ffffff]]][±HH:MM]`; components are range-checked and an
offset must be strictly shorter than one day.  `none` models `ValueError`. -/
def parseIso (l : List Char) : Option (DateTime × Option Int) :=
  match read4 l with
  | some (y, '-' :: r1) =>
    match read2 r1 with
    | some (mo, '-' :: r2) =>
      match read2 r2 with
      | some (da, rest) =>
        match (match rest with
               | [] => some (0, 0, 0, 0, (none : Option Int))
               | _sep :: r3 => parseTime r3) with
        | none => none
        | some (h, mi, s, us, tz) => checkedResult ⟨y, mo, da, h, mi, s, us⟩ tz
      | _ => none
    | _ => none
  | _ => none

/-- Python `str.strip()` whitespace test (the common subset). -/
def isPySpace (c : Char) : Bool :=
  c == ' ' || c == '\t' || c == '\n' || c == '\r' || c == '\x0b' || c == '\x0c'

/-- Python `str.strip()`. -/
def pyStrip (l : List Char) : List Char :=
  ((l.dropWhile isPySpace).reverse.dropWhile isPySpace).reverse

/-- Python `str.replace(old, new)` for a single-character needle
(replaces every occurrence). -/
def pyReplaceChar (c : Char) (repl : List Char) : List Char → List Char
  | [] => []
  | x :: xs => (if x == c then repl else [x]) ++ pyReplaceChar c repl xs

/-- Python `s.split('+')[0]`: the prefix before the first `'+'`. -/
def takeBeforePlus : List Char → List Char
  | [] => []
  | '+' :: _ => []
  | x :: xs => x :: takeBeforePlus xs

/-- Split at the last occurrence of `'-'`: `some (before, after)` with the
dash itself dropped, `none` if there is no dash.  `'-'.join(s.rsplit('-', 2)[:2])`
in the source equals `before` whenever the string has at least two dashes. -/
def splitLastDash (l : List Char) : Option (List Char × List Char) :=
  match l with
  | [] => none
  | x :: xs =>
    match splitLastDash xs with
    | some (b, a) => some (x :: b, a)
    | none => if x == '-' then some ([], xs) else none

/-- The tolerant cleanup the source applies before its second parse attempt
(sinks.py lines 72-82): drop every `'Z'`, strip, cut at the first `'+'`,
else drop a trailing `-...`-segment containing a colon when more than two
dashes remain, then turn a space into `'T'` when no `'T'` is present. -/
def cleanupFallback (l : List Char) : List Char :=
  let s1 := pyStrip (pyReplaceChar 'Z' [] l)
  let s2 :=
    if s1.contains '+' then takeBeforePlus s1
    else if 2 < (s1.filter (· == '-')).length then
      match splitLastDash s1 with
      | some (b, a) => if a.contains ':' then b else s1
      | none => s1
    else s1
  if s2.contains ' ' && !s2.contains 'T' then pyReplaceChar ' ' ['T'] s2 else s2

/-- Python values as they occur in inbound records: JSON scalars and
containers plus `datetime` objects (with optional tzinfo offset in
minutes), mirroring the `isinstance` dispatch in the source. -/
inductive Value where
  | vNull : Value
  | vBool : Bool → Value
  | vInt : Int → Value
  | vStr : String → Value
  | vList : List Value → Value
  | vDict : List (String × Value) → Value
  | vDateTime : DateTime → Option Int → Value
deriving Repr

/-- Python truthiness of a `Value` (`bool(x)`); `datetime` objects are
always truthy. -/
def truthy : Value → Bool
  | .vNull => false
  | .vBool b => b
  | .vInt n => n != 0
  | .vStr s => s.length != 0
  | .vList l => l.length != 0
  | .vDict l => l.length != 0
  | .vDateTime _ _ => true

/-- A record: an insertion-ordered string-keyed mapping. -/
abbrev Rec := List (String × Value)

/-- `record.get(k)`: the first binding of `k`, else `None`. -/
def getKey (r : Rec) (k : String) : Value :=
  match r.find? (fun p => p.fst == k) with
  | some p => p.snd
  | none => .vNull

/-- `k in record`. -/
def memKey (r : Rec) (k : String) : Bool :=
  (r.find? (fun p => p.fst == k)).isSome

/-- `record[k] = v` (new binding shadows any old one). -/
def setKey (r : Rec) (k : String) (v : Value) : Rec := (k, v) :: r

/-- Python `a or b`. -/
def pyOr (a b : Value) : Value := if truthy a then a else b

/-- Python `int()` string parsing: optional surrounding whitespace,
optional sign, at least one digit. -/
def parseIntChars (l : List Char) : Option Int :=
  let core := pyStrip l
  let (sign, digitsPart) :=
    match core with
    | '-' :: rest => ((-1 : Int), rest)
    | '+' :: rest => ((1 : Int), rest)
    | _ => ((1 : Int), core)
  if digitsPart.length != 0 && digitsPart.all Char.isDigit then
    some (sign * (digitsPart.foldl (fun acc c => acc * 10 + (c.toNat - 48)) 0 : Nat))
  else none

/-- Python `int(x)` on a record value; `.error` models the uncaught
`ValueError`/`TypeError` (non-integer `float` inputs are not modelled). -/
def pyInt : Value → Except String Int
  | .vInt n => .ok n
  | .vBool b => .ok (if b then 1 else 0)
  | .vStr s =>
    match parseIntChars s.toList with
    | some n => .ok n
    | none => .error "ValueError: invalid literal for int()"
  | _ => .error "TypeError: int() argument"

/-- Python `str(x)` for the value shapes that can reach it in the source
(container reprs are approximated; no claim exercises them). -/
def pyStr : Value → String
  | .vNull => "None"
  | .vBool b => if b then "True" else "False"
  | .vInt n => toString n
  | .vStr s => s
  | .vList _ => "<list>"
  | .vDict _ => "<dict>"
  | .vDateTime _ _ => "<datetime>"

/-- JSON whitespace. -/
def isJsonWs (c : Char) : Bool := c == ' ' || c == '\t' || c == '\n' || c == '\r'

def skipWs (l : List Char) : List Char := l.dropWhile isJsonWs

/-- JSON string-literal body: consume up to the closing quote, handling
the single-character escapes (`\u` escapes are not modelled). -/
def jsonString : Nat → List Char → Except String (String × List Char)
  | 0, _ => .error "json: fuel"
  | _ + 1, [] => .error "json: unterminated string"
  | fuel + 1, c :: rest =>
    if c == '"' then .ok ("", rest)
    else if c == '\\' then
      match rest with
      | [] => .error "json: bad escape"
      | e :: rest2 =>
        let dec : Except String Char :=
          if e == '"' then .ok '"'
          else if e == '\\' then .ok '\\'
          else if e == '/' then .ok '/'
          else if e == 'b' then .ok '\x08'
          else if e == 'f' then .ok '\x0c'
          else if e == 'n' then .ok '\n'
          else if e == 'r' then .ok '\r'
          else if e == 't' then .ok '\t'
          else .error "json: unsupported escape"
        match dec with
        | .error m => .error m
        | .ok ch =>
          match jsonString fuel rest2 with
          | .ok (s, r) => .ok (⟨ch :: s.toList⟩, r)
          | .error m => .error m
    else
      match jsonString fuel rest with
      | .ok (s, r) => .ok (⟨c :: s.toList⟩, r)
      | .error m => .error m

/-- JSON integer numeral (non-integer numerals are not modelled and
yield a parse error). -/
def jsonNumber (l : List Char) : Except String (Value × List Char) :=
  let (sign, rest) :=
    match l with
    | '-' :: r => ((-1 : Int), r)
    | _ => ((1 : Int), l)
  let digits := rest.takeWhile Char.isDigit
  let rest2 := rest.dropWhile Char.isDigit
  if digits.length == 0 then .error "json: expecting value"
  else
    match rest2 with
    | '.' :: _ => .error "json: non-integer numerals not modelled"
    | 'e' :: _ => .error "json: non-integer numerals not modelled"
    | 'E' :: _ => .error "json: non-integer numerals not modelled"
    | _ =>
      if 2 ≤ digits.length && digits.headD '0' == '0' then
        .error "json: leading zero"
      else
        .ok (.vInt (sign * (digits.foldl (fun acc c => acc * 10 + (c.toNat - 48)) 0 : Nat)), rest2)

mutual

/-- One JSON value. -/
def jsonValue : Nat → List Char → Except String (Value × List Char)
  | 0, _ => .error "json: fuel"
  | fuel + 1, l =>
    match skipWs l with
    | [] => .error "json: expecting value"
    | c :: rest =>
      if c == '"' then
        match jsonString (fuel + 1) rest with
        | .ok (s, r) => .ok (.vStr s, r)
        | .error m => .error m
      else if c == '[' then
        match skipWs rest with
        | ']' :: r => .ok (.vList [], r)
        | _ => jsonArray fuel rest []
      else if c == '\x7b' then
        match skipWs rest with
        | '\x7d' :: r => .ok (.vDict [], r)
        | _ => jsonObject fuel rest []
      else if c == 't' then
        match rest with
        | 'r' :: 'u' :: 'e' :: r => .ok (.vBool true, r)
        | _ => .error "json: expecting value"
      else if c == 'f' then
        match rest with
        | 'a' :: 'l' :: 's' :: 'e' :: r => .ok (.vBool false, r)
        | _ => .error "json: expecting value"
      else if c == 'n' then
        match rest with
        | 'u' :: 'l' :: 'l' :: r => .ok (.vNull, r)
        | _ => .error "json: expecting value"
      else jsonNumber (c :: rest)

/-- Array elements after `[` (accumulated in reverse). -/
def jsonArray : Nat → List Char → List Value → Except String (Value × List Char)
  | 0, _, _ => .error "json: fuel"
  | fuel + 1, l, acc =>
    match jsonValue fuel l with
    | .error m => .error m
    | .ok (v, r) =>
      match skipWs r with
      | ',' :: r2 => jsonArray fuel r2 (v :: acc)
      | ']' :: r2 => .ok (.vList (v :: acc).reverse, r2)
      | _ => .error "json: expecting , or ]"

/-- Object members after the opening brace (accumulated in reverse). -/
def jsonObject : Nat → List Char → List (String × Value) → Except String (Value × List Char)
  | 0, _, _ => .error "json: fuel"
  | fuel + 1, l, acc =>
    match skipWs l with
    | '"' :: r =>
      match jsonString (fuel + 1) r with
      | .error m => .error m
      | .ok (k, r2) =>
        match skipWs r2 with
        | ':' :: r3 =>
          match jsonValue fuel r3 with
          | .error m => .error m
          | .ok (v, r4) =>
            match skipWs r4 with
            | ',' :: r5 => jsonObject fuel r5 ((k, v) :: acc)
            | '\x7d' :: r5 => .ok (.vDict ((k, v) :: acc).reverse, r5)
            | _ => .error "json: expecting , or brace"
        | _ => .error "json: expecting :"
    | _ => .error "json: expecting property name"

end

/-- Model of `json.loads` on the fragment of JSON described in the file
header.  `.error` models `json.JSONDecodeError`. -/
def jsonLoads (s : String) : Except String Value :=
  let l := s.toList
  match jsonValue (l.length + 1) l with
  | .error m => .error m
  | .ok (v, r) =>
    match skipWs r with
    | [] => .ok v
    | _ => .error "json: extra data"

/-- The datetime-normalization block (sinks.py lines 53-91, repeated
verbatim at lines 188-216).  `now` models `datetime.utcnow()`.  The
result is the final value of the `creation_datetime` variable; `.error`
models the uncaught `OverflowError` raised by `astimezone` when the UTC
conversion leaves the supported year range. -/
def normalizeCD (now : DateTime) (v : Value) : Except String Value :=
  match v with
  | .vDateTime d tz =>
    match tz with
    | some off =>
      match astimezoneUTC d off with
      | some d' => .ok (.vStr (fmtZ d'))
      | none => .error "OverflowError: date value out of range"
    | none => .ok (.vStr (fmtZ d))
  | .vStr s =>
    match parseIso (pyReplaceChar 'Z' ('+' :: '0' :: '0' :: ':' :: '0' :: '0' :: []) s.toList) with
    | some (d, some off) =>
      match astimezoneUTC d off with
      | some d' => .ok (.vStr (fmtZ d'))
      | none => .error "OverflowError: date value out of range"
    | some (d, none) => .ok (.vStr (fmtZ d))
    | none =>
      match parseIso (cleanupFallback s.toList) with
      | some (d, tz) => .ok (.vStr (fmtAwareZ d tz))
      | none => .ok (.vStr (fmtZ now))
  | _ => if truthy v then .ok v else .ok (.vStr (fmtZ now))

/-- The slice of the target configuration the sinks read. -/
structure Config where
  default_export_buyOrder_warehouseId : Option Int
deriving Repr

/-- The single-item dict built by the `BuyOrders` line-item loop
(sinks.py lines 255-270): mandatory `productId`/`amount`/`creationDatetime`,
optional `optiplyId`/`targetSupplierId`/`officeId` (absent keys are
modelled as `none`). -/
structure Item where
  productId : Int
  amount : Int
  creationDatetime : Value
  optiplyId : Option String
  targetSupplierId : Option Int
  officeId : Option Int
deriving Repr

/-- An outbound request payload (the dict literal with the single key
`items`). -/
structure Payload where
  items : List Item
deriving Repr

/-- Outcome of one iteration of the line-item loop (sinks.py 233-274):
an emitted item, a logged skip (`continue`), or an uncaught exception
(`AttributeError` on a non-dict line item, `ValueError`/`TypeError` from
`int()`). -/
inductive LineResult where
  | emit : Item → LineResult
  | skip : LineResult
  | crash : String → LineResult
deriving Repr

/-- `line_item.get(k)`: raises `AttributeError` when the parsed line item
is not a dict. -/
def lineGet (v : Value) (k : String) : Except String Value :=
  match v with
  | .vDict kvs => .ok (getKey kvs k)
  | _ => .error "AttributeError: object has no attribute get"

/-- `line_item.get(k1) or line_item.get(k2) or line_item.get(k3)`. -/
def lineGet3 (v : Value) (k1 k2 k3 : String) : Except String Value :=
  match lineGet v k1 with
  | .error e => .error e
  | .ok a =>
    match lineGet v k2 with
    | .error e => .error e
    | .ok b =>
      match lineGet v k3 with
      | .error e => .error e
      | .ok c => .ok (pyOr a (pyOr b c))

/-- The body of the `for line_item in line_items` loop of
`BuyOrders.process_record` (sinks.py lines 233-270), with the shared
order-level fields `cd` (normalized creation datetime), `oidv`
(optiplyId source value) and `tsv` (targetSupplierId source value)
already resolved. -/
def buildLine (cfg : Config) (cd : Value) (oidv tsv : Value) (x : Value) : LineResult :=
  match lineGet3 x "productId" "product_id" "product_remoteId" with
  | .error e => .crash e
  | .ok pidv =>
    if !truthy pidv then .skip
    else
      match lineGet3 x "amount" "quantity" "qty" with
      | .error e => .crash e
      | .ok amtv =>
        if !truthy amtv then .skip
        else
          match pyInt pidv with
          | .error e => .crash e
          | .ok pid =>
            match pyInt amtv with
            | .error e => .crash e
            | .ok amt =>
              match (if truthy tsv then (pyInt tsv).map some else .ok none) with
              | .error e => .crash e
              | .ok ts =>
                .emit ⟨pid, amt, cd,
                  (if truthy oidv then some (pyStr oidv) else none), ts,
                  cfg.default_export_buyOrder_warehouseId⟩

/-- Run the loop over the resolved line items: each emitted item becomes
its own `{"items": [item]}` submission (via `super().process_record`);
a crash aborts the loop but the payloads already submitted stand. -/
def emitLoop (cfg : Config) (cd oidv tsv : Value) : List Value → List Payload × Option String
  | [] => ([], none)
  | x :: xs =>
    match buildLine cfg cd oidv tsv x with
    | .emit it =>
      let r := emitLoop cfg cd oidv tsv xs
      (⟨[it]⟩ :: r.fst, r.snd)
    | .skip => emitLoop cfg cd oidv tsv xs
    | .crash e => ([], some e)

/-- Result of `BuyOrders.process_record`: the record passed through to
the buffered base implementation (when it already carries `items`), the
single-item payloads submitted by the splitting path, and an uncaught
exception if one escaped. -/
structure BOResult where
  passthrough : Option Rec
  payloads : List Payload
  error : Option String
deriving Repr

/-- The `creationDatetime` alias chain (sinks.py lines 46-51 and 181-186). -/
def orderCreation (r : Rec) : Value :=
  pyOr (getKey r "creationDatetime") (pyOr (getKey r "creation_datetime")
    (pyOr (getKey r "transaction_date") (getKey r "created_at")))

/-- The `optiplyId` alias chain (sinks.py lines 94-98 and 219-223). -/
def orderOptiply (r : Rec) : Value :=
  pyOr (getKey r "optiplyId") (pyOr (getKey r "optiply_id") (getKey r "id"))

/-- The `targetSupplierId` alias chain (sinks.py lines 226-230). -/
def orderSupplier (r : Rec) : Value :=
  pyOr (getKey r "targetSupplierId") (pyOr (getKey r "target_supplier_id")
    (getKey r "supplier_remoteId"))

/-- Continuation of the splitting path once `line_items` is resolved to a
truthy parsed value (sinks.py lines 172-274). -/
def splitParsed (cfg : Config) (now : DateTime) (r : Rec) (v : Value) : BOResult :=
  if !truthy v then ⟨none, [], none⟩
  else
    let litems := match v with | .vList l => l | _ => [v]
    match normalizeCD now (orderCreation r) with
    | .error e => ⟨none, [], some e⟩
    | .ok cd =>
      let res := emitLoop cfg cd (orderOptiply r) (orderSupplier r) litems
      ⟨none, res.fst, res.snd⟩

/-- The `line_items` splitting path of `BuyOrders.process_record`
(sinks.py lines 154-274). -/
def splitLineItems (cfg : Config) (now : DateTime) (r : Rec) : BOResult :=
  match getKey r "line_items" with
  | .vNull => ⟨none, [], none⟩
  | .vStr s =>
    if (pyStrip s.toList).length == 0 then ⟨none, [], none⟩
    else
      match jsonLoads s with
      | .error _ => ⟨none, [], none⟩
      | .ok v => splitParsed cfg now r v
  | v => splitParsed cfg now r v

/-- `BuyOrders.process_record` (sinks.py lines 147-274). -/
def processBO (cfg : Config) (now : DateTime) (r : Rec) : BOResult :=
  if memKey r "items" && !memKey r "line_items" then ⟨some r, [], none⟩
  else splitLineItems cfg now r

/-- The single-item dict built by `PrePurchaseOrders.preprocess_record`
(sinks.py lines 100-106): no supplier/office injection on this path. -/
structure ItemPPO where
  productId : Int
  amount : Int
  creationDatetime : Value
  optiplyId : Option String
deriving Repr

/-- The `productId` alias chain over a direct record (sinks.py lines 26-30). -/
def directPid (r : Rec) : Value :=
  pyOr (getKey r "productId") (pyOr (getKey r "product_id") (getKey r "product_remoteId"))

/-- The `amount` alias chain over a direct record (sinks.py lines 36-40). -/
def directAmount (r : Rec) : Value :=
  pyOr (getKey r "amount") (pyOr (getKey r "quantity") (getKey r "qty"))

/-- The direct-shape item construction of `PrePurchaseOrders.preprocess_record`
(sinks.py lines 23-110): everything after the composite-record guard. -/
def directBuildPPO (now : DateTime) (r : Rec) : Except String (Option (List ItemPPO)) :=
  if !truthy (directPid r) then .ok none
  else if !truthy (directAmount r) then .ok none
  else
    match normalizeCD now (orderCreation r) with
    | .error e => .error e
    | .ok cd =>
      match pyInt (directPid r) with
      | .error e => .error e
      | .ok pid =>
        match pyInt (directAmount r) with
        | .error e => .error e
        | .ok amt =>
          .ok (some [⟨pid, amt, cd,
            if truthy (orderOptiply r) then some (pyStr (orderOptiply r)) else none⟩])

/-- `PrePurchaseOrders.preprocess_record` (sinks.py lines 16-110):
`ok none` models `return None` (record skipped), `.error` an uncaught
exception (overflowing datetime conversion or failing `int()` coercion). -/
def preprocessPPO (now : DateTime) (r : Rec) : Except String (Option (List ItemPPO)) :=
  if memKey r "line_items" && truthy (getKey r "line_items") then .ok none
  else directBuildPPO now r

/-- The transport outcome of `self.request_api(...)` as the sinks see it:
a returned response (status code plus the `response.json()` result), or a
raised `FatalAPIError` carrying the error text. -/
inductive Outcome where
  | success : Nat → Except String Value → Outcome
  | failure : String → Outcome

/-- The per-submission result triple `(response_id, success, state_updates)`;
a missing id is `Value.vNull` (Python `None`). -/
structure UpsertResult where
  responseId : Value
  success : Bool
  stateUpdates : List (String × String)
deriving Repr

/-- The id the `try: response.json(); .get("id")` block yields: the
top-level `id` of a dict body, else `None` (`JSONDecodeError` and
`AttributeError` are caught there). -/
def responseBodyId (body : Except String Value) : Value :=
  match body with
  | .ok (.vDict kvs) => getKey kvs "id"
  | _ => .vNull

/-- The response-handling block shared verbatim by both sinks
(sinks.py lines 119-138 and 284-303): on a raised request error the
exception escapes (`.error`); on a response, a success status attempts
id extraction from the body with fallback to the first item's
`optiplyId`. -/
def upsertCore (rec : Value) (outcome : Outcome) : Except String UpsertResult :=
  match outcome with
  | .failure msg => .error msg
  | .success status body =>
    if status == 200 || status == 201 || status == 204 then
      if truthy (responseBodyId body) then .ok ⟨responseBodyId body, true, []⟩
      else
        match lineGet rec "items" with
        | .error e => .error e
        | .ok itemsV =>
          if truthy itemsV then
            match itemsV with
            | .vList (first :: _) =>
              match lineGet first "optiplyId" with
              | .error e => .error e
              | .ok oid => .ok ⟨oid, true, []⟩
            | .vList [] => .ok ⟨responseBodyId body, true, []⟩
            | _ => .error "TypeError: items is not a list"
          else .ok ⟨responseBodyId body, true, []⟩
    else .ok ⟨.vNull, true, []⟩

/-- `PrePurchaseOrders.upsert_record` (sinks.py lines 112-138): no
`try`/`except` around the request, so a raised `FatalAPIError`
propagates to the caller. -/
def upsertPPO (rec : Value) (outcome : Outcome) : Except String UpsertResult :=
  if !truthy rec then .ok ⟨.vNull, false, []⟩
  else upsertCore rec outcome

/-- `BuyOrders.upsert_record` (sinks.py lines 276-311): identical to the
`PrePurchaseOrders` variant except that the whole block is wrapped in
`try`/`except`, converting any raised error into
`(None, False, curly-braces error text)`. -/
def upsertBO (rec : Value) (outcome : Outcome) : UpsertResult :=
  if !truthy rec then ⟨.vNull, false, []⟩
  else
    match upsertCore rec outcome with
    | .ok t => t
    | .error e => ⟨.vNull, false, [("error", e)]⟩

/-- The canonical wire pattern `YYYY-MM-DDTHH:MM:SS.mmmZ`: exactly 24
characters, digits and the fixed separators at the fixed positions. -/
def matchesPattern (s : String) : Bool :=
  let l := s.toList
  let dig := fun (i : Nat) => (l.getD i ' ').isDigit
  l.length == 24 &&
  dig 0 && dig 1 && dig 2 && dig 3 && l.getD 4 ' ' == '-' &&
  dig 5 && dig 6 && l.getD 7 ' ' == '-' &&
  dig 8 && dig 9 && l.getD 10 ' ' == 'T' &&
  dig 11 && dig 12 && l.getD 13 ' ' == ':' &&
  dig 14 && dig 15 && l.getD 16 ' ' == ':' &&
  dig 17 && dig 18 && l.getD 19 ' ' == '.' &&
  dig 20 && dig 21 && dig 22 && l.getD 23 ' ' == 'Z'

/-- The input domain named by the spec for the datetime normalizer: a
native datetime value, a string, or an empty/absent (falsy) value. -/
def acceptedInput : Value → Bool
  | .vDateTime _ _ => true
  | .vStr _ => true
  | v => !truthy v

/-- Detects the strings on which the tolerant fallback of the normalizer
(sinks.py lines 70-86) succeeds while the cleaned-up string still carries
a timezone offset — `isoformat` then embeds that offset in the output. -/
def fallbackKeepsTz (s : String) : Bool :=
  (parseIso (pyReplaceChar 'Z' ('+' :: '0' :: '0' :: ':' :: '0' :: '0' :: []) s.toList)).isNone &&
  (match parseIso (cleanupFallback s.toList) with
   | some (_, some _) => true
   | _ => false)

/-- `acceptedInput` minus the offset-retaining fallback strings. -/
def cleanInput : Value → Bool
  | .vStr s => !fallbackKeepsTz s
  | _ => true

/-- Well-formedness of a record value: any `datetime` object it carries
satisfies the invariants Python's constructors enforce. -/
def validValue : Value → Bool
  | .vDateTime d none => validDT d
  | .vDateTime d (some off) => validDT d && off.natAbs ≤ 1439
  | _ => true

/-! ### Helper lemmas -/

theorem dchar_isDigit (n : Nat) : (dchar n).isDigit = true := by
  have h : ∀ k, k < 10 → (Char.ofNat (48 + k)).isDigit = true := by decide
  exact h (n % 10) (Nat.mod_lt _ (by norm_num))

theorem dchar_toNat (n : Nat) : (dchar n).toNat - 48 = n % 10 := by
  have h : ∀ k, k < 10 → (Char.ofNat (48 + k)).toNat - 48 = k := by decide
  exact h (n % 10) (Nat.mod_lt _ (by norm_num))

theorem dchar_ne_Z (n : Nat) : dchar n ≠ 'Z' := by
  have h : ∀ k, k < 10 → Char.ofNat (48 + k) ≠ 'Z' := by decide
  exact h (n % 10) (Nat.mod_lt _ (by norm_num))

theorem fmtNaiveChars_length (d : DateTime) : (fmtNaiveChars d).length = 23 := by
  simp [fmtNaiveChars, pad4, pad3, pad2]

/-- The canonical formatter always produces the canonical pattern
(the pads are fixed-width by construction). -/
theorem matchesPattern_fmtZ (d : DateTime) : matchesPattern (fmtZ d) = true := by
  simp [fmtZ, fmtNaiveChars, pad4, pad3, pad2, matchesPattern, List.getD,
    dchar_isDigit]

theorem matchesPattern_length {s : String} (h : matchesPattern s = true) :
    s.toList.length = 24 := by
  simp only [matchesPattern, Bool.and_eq_true, beq_iff_eq] at h
  exact h.1.1.1.1.1.1.1.1.1.1.1.1.1.1.1.1.1.1.1.1.1.1.1.1

/-- An aware value formatted on the fallback path has the offset embedded,
so the result is 30 characters long and never canonical. -/
theorem matchesPattern_fmtAware_some (d : DateTime) (off : Int) :
    matchesPattern (fmtAwareZ d (some off)) = false := by
  by_contra h
  have h2 := matchesPattern_length (s := fmtAwareZ d (some off)) (by
    revert h; cases hm : matchesPattern (fmtAwareZ d (some off)) <;> simp)
  simp [fmtAwareZ, offsetChars, pad2, fmtNaiveChars_length, String.toList] at h2

theorem fmtAware_none (d : DateTime) : fmtAwareZ d none = fmtZ d := by
  simp [fmtAwareZ, fmtZ]

theorem validDT_iff (d : DateTime) : validDT d = true ↔
    (1 ≤ d.year ∧ d.year ≤ 9999 ∧ 1 ≤ d.month ∧ d.month ≤ 12 ∧
     1 ≤ d.day ∧ d.day ≤ daysInMonth d.year d.month ∧
     d.hour ≤ 23 ∧ d.minute ≤ 59 ∧ d.second ≤ 59 ∧ d.usec ≤ 999999) := by
  simp only [validDT, Bool.and_eq_true, decide_eq_true_eq]
  tauto

theorem daysInMonth_bounds (y m : Nat) : 28 ≤ daysInMonth y m ∧ daysInMonth y m ≤ 31 := by
  unfold daysInMonth
  split_ifs <;> omega

theorem prevDay_valid {d d' : DateTime} (hv : validDT d = true)
    (h : prevDay d = some d') : validDT d' = true := by
  obtain ⟨yr, mo, da, hh, mi, ss, us⟩ := d
  have hb := (validDT_iff _).mp hv
  dsimp only at hb
  unfold prevDay at h
  dsimp only at h
  rw [validDT_iff]
  split_ifs at h with h1 h2 h3
  · injection h with h; subst h
    dsimp only
    omega
  · injection h with h; subst h
    dsimp only
    have hdm := daysInMonth_bounds yr (mo - 1)
    omega
  · injection h with h; subst h
    dsimp only
    have hdm : daysInMonth (yr - 1) 12 = 31 := by simp [daysInMonth]
    omega

theorem nextDay_valid {d d' : DateTime} (hv : validDT d = true)
    (h : nextDay d = some d') : validDT d' = true := by
  obtain ⟨yr, mo, da, hh, mi, ss, us⟩ := d
  have hb := (validDT_iff _).mp hv
  dsimp only at hb
  unfold nextDay at h
  dsimp only at h
  rw [validDT_iff]
  split_ifs at h with h1 h2 h3
  · injection h with h; subst h
    dsimp only
    omega
  · injection h with h; subst h
    dsimp only
    have hdm := daysInMonth_bounds yr (mo + 1)
    omega
  · injection h with h; subst h
    dsimp only
    have hdm : daysInMonth (yr + 1) 1 = 31 := by simp [daysInMonth]
    omega

theorem astimezoneUTC_valid {d : DateTime} {off : Int} {d' : DateTime}
    (hv : validDT d = true) (hoff : off.natAbs ≤ 1439)
    (h : astimezoneUTC d off = some d') : validDT d' = true := by
  have hb := (validDT_iff d).mp hv
  simp only [astimezoneUTC] at h
  split_ifs at h with h1 h2
  · injection h with h; subst h
    rw [validDT_iff]
    dsimp only
    refine ⟨hb.1, hb.2.1, hb.2.2.1, hb.2.2.2.1, hb.2.2.2.2.1, hb.2.2.2.2.2.1, ?_, ?_,
      hb.2.2.2.2.2.2.2.2.1, hb.2.2.2.2.2.2.2.2.2⟩ <;> omega
  · rcases hp : prevDay d with - | dp
    · rw [hp] at h; exact absurd h (by simp)
    · rw [hp] at h
      injection h with h; subst h
      have hvp := (validDT_iff _).mp (prevDay_valid hv hp)
      rw [validDT_iff]
      dsimp only
      have hhm : d.hour ≤ 23 := hb.2.2.2.2.2.2.1
      have hmm : d.minute ≤ 59 := hb.2.2.2.2.2.2.2.1
      refine ⟨hvp.1, hvp.2.1, hvp.2.2.1, hvp.2.2.2.1, hvp.2.2.2.2.1, hvp.2.2.2.2.2.1,
        ?_, ?_, hvp.2.2.2.2.2.2.2.2.1, hvp.2.2.2.2.2.2.2.2.2⟩ <;> omega
  · rcases hn : nextDay d with - | dn
    · rw [hn] at h; exact absurd h (by simp)
    · rw [hn] at h
      injection h with h; subst h
      have hvn := (validDT_iff _).mp (nextDay_valid hv hn)
      rw [validDT_iff]
      dsimp only
      have hhm : d.hour ≤ 23 := hb.2.2.2.2.2.2.1
      have hmm : d.minute ≤ 59 := hb.2.2.2.2.2.2.2.1
      refine ⟨hvn.1, hvn.2.1, hvn.2.2.1, hvn.2.2.2.1, hvn.2.2.2.2.1, hvn.2.2.2.2.2.1,
        ?_, ?_, hvn.2.2.2.2.2.2.2.2.1, hvn.2.2.2.2.2.2.2.2.2⟩ <;> omega

theorem astimezoneUTC_zero {d : DateTime} (hv : validDT d = true) :
    astimezoneUTC d 0 = some d := by
  obtain ⟨yr, mo, da, hh, mi, ss, us⟩ := d
  have hb := (validDT_iff _).mp hv
  dsimp only at hb
  simp only [astimezoneUTC]
  rw [if_pos (by omega)]
  simp only [Option.some.injEq, DateTime.mk.injEq, true_and, and_true]
  constructor <;> omega

theorem readDig_dchar (k : Nat) : readDig (dchar k) = some (k % 10) := by
  simp [readDig, dchar_isDigit, dchar_toNat]

theorem read2_pad2 (n : Nat) (hn : n ≤ 99) (rest : List Char) :
    read2 (pad2 n ++ rest) = some (n, rest) := by
  simp only [pad2, List.cons_append, List.nil_append, read2, readDig_dchar]
  have h : n / 10 % 10 * 10 + n % 10 = n := by omega
  rw [h]

theorem read3_pad3 (n : Nat) (hn : n ≤ 999) (rest : List Char) :
    read3 (pad3 n ++ rest) = some (n, rest) := by
  simp only [pad3, List.cons_append, List.nil_append, read3, readDig_dchar]
  have h : n / 100 % 10 * 100 + n / 10 % 10 * 10 + n % 10 = n := by omega
  rw [h]

theorem read4_pad4 (n : Nat) (hn : n ≤ 9999) (rest : List Char) :
    read4 (pad4 n ++ rest) = some (n, rest) := by
  simp only [pad4, List.cons_append, List.nil_append, read4, readDig_dchar]
  have h : n / 1000 % 10 * 1000 + n / 100 % 10 * 100 + n / 10 % 10 * 10 + n % 10 = n := by
    omega
  rw [h]

theorem parseOff_utc : parseOff ('+' :: '0' :: '0' :: ':' :: '0' :: '0' :: []) =
    some (some 0) := by rfl

/-- Every character the canonical formatter emits is a digit or one of the
fixed separators; in particular it is never `'Z'`. -/
theorem fmtNaiveChars_no_Z (d : DateTime) : ∀ c ∈ fmtNaiveChars d, ¬(c == 'Z') = true := by
  intro c hc
  simp only [fmtNaiveChars, pad4, pad3, pad2, List.cons_append, List.nil_append,
    List.mem_cons, List.not_mem_nil, or_false] at hc
  have hd : ∀ k, ¬(dchar k == 'Z') = true := by
    intro k
    have h : ∀ j, j < 10 → ¬(Char.ofNat (48 + j) == 'Z') = true := by decide
    exact h (k % 10) (Nat.mod_lt _ (by norm_num))
  rcases hc with rfl | rfl | rfl | rfl | rfl | rfl | rfl | rfl | rfl | rfl | rfl | rfl |
    rfl | rfl | rfl | rfl | rfl | rfl | rfl | rfl | rfl | rfl | rfl <;>
    first | exact hd _ | decide

theorem pyReplaceChar_no_hit {l : List Char} (repl : List Char)
    (h : ∀ c ∈ l, ¬(c == 'Z') = true) (tail0 tail1 : List Char)
    (htail : pyReplaceChar 'Z' repl tail0 = tail1) :
    pyReplaceChar 'Z' repl (l ++ tail0) = l ++ tail1 := by
  induction l with
  | nil => simpa using htail
  | cons c cs ih =>
    have hc : (c == 'Z') = false := by
      have := h c (List.mem_cons_self c cs)
      revert this
      cases c == 'Z' <;> simp
    simp only [List.cons_append, pyReplaceChar, hc, Bool.false_eq_true, if_false,
      List.singleton_append, List.cons.injEq, true_and]
    exact ih (fun c2 hc2 => h c2 (List.mem_cons_of_mem c hc2))

theorem replaceZ_fmtZ (d : DateTime) :
    pyReplaceChar 'Z' ('+' :: '0' :: '0' :: ':' :: '0' :: '0' :: []) (fmtZ d).toList =
    fmtNaiveChars d ++ ('+' :: '0' :: '0' :: ':' :: '0' :: '0' :: []) := by
  have h0 : (fmtZ d).toList = fmtNaiveChars d ++ ['Z'] := rfl
  rw [h0]
  exact pyReplaceChar_no_hit _ (fmtNaiveChars_no_Z d) ['Z'] _ rfl

/-- The microsecond field truncated to milliseconds, as the formatter
renders it and the parser reads it back. -/
def truncMs (d : DateTime) : DateTime :=
  ⟨d.year, d.month, d.day, d.hour, d.minute, d.second, d.usec / 1000 * 1000⟩

theorem validDT_truncMs {d : DateTime} (hv : validDT d = true) :
    validDT (truncMs d) = true := by
  rw [validDT_iff] at hv ⊢
  simp only [truncMs]
  refine ⟨hv.1, hv.2.1, hv.2.2.1, hv.2.2.2.1, hv.2.2.2.2.1, hv.2.2.2.2.2.1,
    hv.2.2.2.2.2.2.1, hv.2.2.2.2.2.2.2.1, hv.2.2.2.2.2.2.2.2.1, by omega⟩

theorem fmtZ_truncMs (d : DateTime) : fmtZ (truncMs d) = fmtZ d := by
  simp only [fmtZ, fmtNaiveChars, truncMs]
  have h : d.usec / 1000 * 1000 / 1000 = d.usec / 1000 := by omega
  rw [h]

/-- Parsing the canonical rendering back (with the `Z` already replaced by
`+00:00`) recovers the datetime up to millisecond truncation, tagged UTC. -/
theorem parseIso_fmt (d : DateTime) (hv : validDT d = true) :
    parseIso (fmtNaiveChars d ++ ('+' :: '0' :: '0' :: ':' :: '0' :: '0' :: [])) =
    some (truncMs d, some 0) := by
  have hb := (validDT_iff d).mp hv
  have hus : d.usec / 1000 ≤ 999 := by omega
  have hday : d.day ≤ 99 := by
    have := (daysInMonth_bounds d.year d.month).2
    omega
  have hplus : ('+' : Char).isDigit = false := rfl
  have hvt : validDT ⟨d.year, d.month, d.day, d.hour, d.minute, d.second,
      d.usec / 1000 * 1000⟩ = true := by
    have h := validDT_truncMs hv
    simpa only [truncMs] using h
  simp only [fmtNaiveChars, List.append_assoc, List.cons_append, List.nil_append,
    parseIso, read4_pad4 d.year (by omega : d.year ≤ 9999),
    read2_pad2 d.month (by omega : d.month ≤ 99), read2_pad2 d.day hday,
    parseTime, read2_pad2 d.hour (by omega : d.hour ≤ 99),
    read2_pad2 d.minute (by omega : d.minute ≤ 99),
    read2_pad2 d.second (by omega : d.second ≤ 99),
    parseFrac, read3_pad3 (d.usec / 1000) hus, hplus, parseOff_utc,
    Bool.false_eq_true, if_false, checkedResult, truncMs, hvt, Int.natAbs_zero,
    Bool.true_and, Bool.and_true, decide_True, if_true]
  norm_num

theorem checkedResult_valid {d0 d : DateTime} {tz0 tz : Option Int}
    (h : checkedResult d0 tz0 = some (d, tz)) :
    validDT d = true ∧ ∀ o, tz = some o → o.natAbs ≤ 1439 := by
  simp only [checkedResult] at h
  split_ifs at h with hg
  · injection h with h
    injection h with h1 h2
    subst h1; subst h2
    simp only [Bool.and_eq_true] at hg
    refine ⟨hg.1, ?_⟩
    intro o ho
    subst ho
    simpa using hg.2

/-- Everything `parseIso` returns passed `fromisoformat`'s validation. -/
theorem parseIso_valid {l : List Char} {d : DateTime} {tz : Option Int}
    (h : parseIso l = some (d, tz)) :
    validDT d = true ∧ ∀ o, tz = some o → o.natAbs ≤ 1439 := by
  unfold parseIso at h
  repeat split at h
  all_goals first
    | exact checkedResult_valid h
    | exact absurd h (by simp)

/-- Re-normalizing a canonical output is the identity: the first parse
attempt succeeds with a `+00:00` offset and the UTC conversion is a
no-op, reproducing the same string. -/
theorem normalize_fmtZ_fixed (now' : DateTime) (d : DateTime) (hv : validDT d = true) :
    normalizeCD now' (.vStr (fmtZ d)) = .ok (.vStr (fmtZ d)) := by
  have hp : parseIso (pyReplaceChar 'Z'
      ('+' :: '0' :: '0' :: ':' :: '0' :: '0' :: []) (fmtZ d).toList) =
      some (truncMs d, some 0) := by
    rw [replaceZ_fmtZ d]
    exact parseIso_fmt d hv
  simp only [normalizeCD, hp, astimezoneUTC_zero (validDT_truncMs hv), fmtZ_truncMs]

/-! ### Claim C3 -/

/-- Claim C3 (amended): for every accepted normalizer input — a datetime
value, a string, or an empty/absent value — that does not take the
offset-retaining fallback path, a returned normalization result matches
the canonical pattern `YYYY-MM-DDTHH:MM:SS.mmmZ` exactly.  (The two
exceptions forced by the counterexample: the fallback can embed a
surviving offset before the `Z`, and the UTC conversion of a value near
the year range raises an uncaught `OverflowError`, modelled as
`.error`.) -/
theorem normalize_output_matches_pattern (now : DateTime) (v : Value) (s : String)
    (hacc : acceptedInput v = true) (hcl : cleanInput v = true)
    (hok : normalizeCD now v = .ok (.vStr s)) : matchesPattern s = true := by
  cases v with
  | vDateTime d tz =>
    cases tz with
    | none =>
      simp only [normalizeCD, Except.ok.injEq, Value.vStr.injEq] at hok
      rw [← hok]; exact matchesPattern_fmtZ d
    | some off =>
      rcases h : astimezoneUTC d off with - | d'
      · simp [normalizeCD, h] at hok
      · simp only [normalizeCD, h, Except.ok.injEq, Value.vStr.injEq] at hok
        rw [← hok]; exact matchesPattern_fmtZ d'
  | vStr s0 =>
    simp only [normalizeCD] at hok
    split at hok
    · rename_i d off hp
      split at hok
      · rename_i d' h
        simp only [Except.ok.injEq, Value.vStr.injEq] at hok
        rw [← hok]; exact matchesPattern_fmtZ d'
      · exact absurd hok (by simp)
    · rename_i d hp
      simp only [Except.ok.injEq, Value.vStr.injEq] at hok
      rw [← hok]; exact matchesPattern_fmtZ d
    · rename_i hp
      split at hok
      · rename_i d tz hf
        cases tz with
        | none =>
          simp only [fmtAware_none, Except.ok.injEq, Value.vStr.injEq] at hok
          rw [← hok]; exact matchesPattern_fmtZ d
        | some off =>
          exfalso
          simp only [cleanInput, fallbackKeepsTz, hp, hf, Option.isNone_none,
            Bool.true_and, Bool.not_true] at hcl
          exact Bool.noConfusion hcl
      · rename_i hf
        simp only [Except.ok.injEq, Value.vStr.injEq] at hok
        rw [← hok]; exact matchesPattern_fmtZ now
  | vNull =>
    simp only [normalizeCD, truthy, Bool.false_eq_true, if_neg, ite_false,
      Except.ok.injEq, Value.vStr.injEq] at hok
    rw [← hok]; exact matchesPattern_fmtZ now
  | vBool b =>
    simp only [acceptedInput, truthy, Bool.not_eq_true'] at hacc
    subst hacc
    simp only [normalizeCD, truthy, Bool.false_eq_true, ite_false,
      Except.ok.injEq, Value.vStr.injEq] at hok
    rw [← hok]; exact matchesPattern_fmtZ now
  | vInt n =>
    simp only [acceptedInput, Bool.not_eq_true'] at hacc
    simp only [normalizeCD, hacc, Bool.false_eq_true, ite_false, Except.ok.injEq,
      Value.vStr.injEq] at hok
    rw [← hok]; exact matchesPattern_fmtZ now
  | vList l =>
    simp only [acceptedInput, Bool.not_eq_true'] at hacc
    simp only [normalizeCD, hacc, Bool.false_eq_true, ite_false, Except.ok.injEq,
      Value.vStr.injEq] at hok
    rw [← hok]; exact matchesPattern_fmtZ now
  | vDict l =>
    simp only [acceptedInput, Bool.not_eq_true'] at hacc
    simp only [normalizeCD, hacc, Bool.false_eq_true, ite_false, Except.ok.injEq,
      Value.vStr.injEq] at hok
    rw [← hok]; exact matchesPattern_fmtZ now

/-! ### Claim C4 -/

/-- Claim C4 (amended): datetime normalization is idempotent on every
accepted input whose normalized output is canonical (matches the
pattern); re-normalizing such an output returns it unchanged.  The
exception forced by the counterexample: when the tolerant fallback
retains a timezone offset, the non-canonical output is parsed differently
on the second pass and changes. -/
theorem normalize_idempotent_canonical (now now' : DateTime) (x : Value) (s : String)
    (hnow : validDT now = true) (hx : validValue x = true)
    (hok : normalizeCD now x = .ok (.vStr s)) (hpat : matchesPattern s = true) :
    normalizeCD now' (.vStr s) = .ok (.vStr s) := by
  obtain ⟨d, hd, rfl⟩ : ∃ d, validDT d = true ∧ s = fmtZ d := by
    cases x with
    | vDateTime d0 tz =>
      cases tz with
      | none =>
        simp only [normalizeCD, Except.ok.injEq, Value.vStr.injEq] at hok
        exact ⟨d0, by simpa [validValue] using hx, hok.symm⟩
      | some off =>
        simp only [validValue, Bool.and_eq_true, decide_eq_true_eq] at hx
        rcases h : astimezoneUTC d0 off with - | d1
        · simp [normalizeCD, h] at hok
        · simp only [normalizeCD, h, Except.ok.injEq, Value.vStr.injEq] at hok
          exact ⟨d1, astimezoneUTC_valid hx.1 hx.2 h, hok.symm⟩
    | vStr s0 =>
      simp only [normalizeCD] at hok
      split at hok
      · rename_i d0 off hp
        split at hok
        · rename_i d1 h
          simp only [Except.ok.injEq, Value.vStr.injEq] at hok
          have hv0 := parseIso_valid hp
          exact ⟨d1, astimezoneUTC_valid hv0.1 (hv0.2 off rfl) h, hok.symm⟩
        · exact absurd hok (by simp)
      · rename_i d0 hp
        simp only [Except.ok.injEq, Value.vStr.injEq] at hok
        exact ⟨d0, (parseIso_valid hp).1, hok.symm⟩
      · rename_i hp
        split at hok
        · rename_i d0 tz hf
          cases tz with
          | none =>
            simp only [fmtAware_none, Except.ok.injEq, Value.vStr.injEq] at hok
            exact ⟨d0, (parseIso_valid hf).1, hok.symm⟩
          | some off =>
            exfalso
            simp only [Except.ok.injEq, Value.vStr.injEq] at hok
            rw [← hok] at hpat
            rw [matchesPattern_fmtAware_some d0 off] at hpat
            exact Bool.noConfusion hpat
        · rename_i hf
          simp only [Except.ok.injEq, Value.vStr.injEq] at hok
          exact ⟨now, hnow, hok.symm⟩
    | vNull =>
      simp only [normalizeCD, truthy, Bool.false_eq_true, ite_false,
        Except.ok.injEq, Value.vStr.injEq] at hok
      exact ⟨now, hnow, hok.symm⟩
    | vBool b =>
      cases b with
      | false =>
        simp only [normalizeCD, truthy, Bool.false_eq_true, ite_false,
          Except.ok.injEq, Value.vStr.injEq] at hok
        exact ⟨now, hnow, hok.symm⟩
      | true => simp [normalizeCD, truthy] at hok
    | vInt n =>
      simp only [normalizeCD] at hok
      split at hok
      · exact absurd hok (by simp)
      · simp only [Except.ok.injEq, Value.vStr.injEq] at hok
        exact ⟨now, hnow, hok.symm⟩
    | vList l =>
      simp only [normalizeCD] at hok
      split at hok
      · exact absurd hok (by simp)
      · simp only [Except.ok.injEq, Value.vStr.injEq] at hok
        exact ⟨now, hnow, hok.symm⟩
    | vDict l =>
      simp only [normalizeCD] at hok
      split at hok
      · exact absurd hok (by simp)
      · simp only [Except.ok.injEq, Value.vStr.injEq] at hok
        exact ⟨now, hnow, hok.symm⟩
  exact normalize_fmtZ_fixed now' d hd

/-- A fixed "current UTC time" used to instantiate the `utcnow` parameter
in concrete computations. -/
def sampleNow : DateTime := ⟨2026, 1, 2, 3, 4, 5, 6⟩

/-- A second fixed clock value, to show independence from the clock. -/
def sampleNow2 : DateTime := ⟨2027, 11, 30, 22, 58, 59, 999999⟩

/-- Claim C3 counterexample: the input
`2025-08-18T13:35:51-05:00-06:00` reaches the tolerant fallback, the
cleanup keeps the first offset, and the output embeds `-05:00` before the
`Z`, violating the canonical pattern; and the input
`9999-12-31T23:59:59-05:00` makes the UTC conversion overflow the year
range, modelling the uncaught `OverflowError` (so normalization can
throw). -/
theorem normalize_pattern_counterexample :
    (normalizeCD sampleNow (.vStr "2025-08-18T13:35:51-05:00-06:00") =
        .ok (.vStr "2025-08-18T13:35:51.000-05:00Z") ∧
      matchesPattern "2025-08-18T13:35:51.000-05:00Z" = false) ∧
    normalizeCD sampleNow (.vStr "9999-12-31T23:59:59-05:00") =
      .error "OverflowError: date value out of range" :=
  ⟨⟨rfl, rfl⟩, rfl⟩

/-- Claim C3 witness: a concrete accepted input away from the excluded
fallback path normalizes to a pattern-matching string. -/
theorem normalize_output_matches_pattern_witness :
    matchesPattern "2025-08-18T11:35:51.885Z" = true :=
  normalize_output_matches_pattern sampleNow
    (.vStr "2025-08-18T13:35:51.885123+02:00") "2025-08-18T11:35:51.885Z"
    rfl rfl rfl

/-- Claim C4 counterexample: normalizing the offset-retaining input gives
a non-canonical string, and normalizing that output changes it — so
`normalize (normalize x)` differs from `normalize x`. -/
theorem normalize_idempotence_counterexample :
    normalizeCD sampleNow (.vStr "2025-08-18T13:35:51-05:00-06:00") =
      .ok (.vStr "2025-08-18T13:35:51.000-05:00Z") ∧
    normalizeCD sampleNow (.vStr "2025-08-18T13:35:51.000-05:00Z") =
      .ok (.vStr "2025-08-18T13:35:51.000Z") ∧
    ("2025-08-18T13:35:51.000Z" : String) ≠ "2025-08-18T13:35:51.000-05:00Z" :=
  ⟨rfl, rfl, by decide⟩

/-- Claim C4 witness: re-normalizing a canonical output reproduces it,
even under a different current-time parameter. -/
theorem normalize_idempotent_canonical_witness :
    normalizeCD sampleNow2 (.vStr "2025-08-18T11:35:51.885Z") =
      .ok (.vStr "2025-08-18T11:35:51.885Z") :=
  normalize_idempotent_canonical sampleNow sampleNow2
    (.vStr "2025-08-18T13:35:51.885123+02:00") "2025-08-18T11:35:51.885Z"
    rfl rfl rfl rfl

/-! ### Record-level helper lemmas -/

theorem getKey_eq_vNull_of_not_mem {r : Rec} {k : String} (h : memKey r k = false) :
    getKey r k = .vNull := by
  unfold memKey at h
  unfold getKey
  cases hf : r.find? (fun p => p.fst == k) with
  | none => rfl
  | some p => exact absurd h (by simp [hf])

theorem memKey_of_get_ne_null {r : Rec} {k : String} (h : getKey r k ≠ .vNull) :
    memKey r k = true := by
  by_contra hm
  rw [Bool.not_eq_true] at hm
  exact h (getKey_eq_vNull_of_not_mem hm)

theorem getKey_setKey_self (r : Rec) (k : String) (v : Value) :
    getKey (setKey r k v) k = v := by
  simp [getKey, setKey, List.find?]

theorem getKey_setKey_ne (r : Rec) (k k' : String) (v : Value) (h : k' ≠ k) :
    getKey (setKey r k v) k' = getKey r k' := by
  simp only [getKey, setKey, List.find?]
  have hb : (k == k') = false := by
    rw [beq_eq_false_iff_ne]
    exact fun he => h he.symm
  rw [hb]

theorem memKey_setKey_self (r : Rec) (k : String) (v : Value) :
    memKey (setKey r k v) k = true := by
  simp [memKey, setKey, List.find?]

theorem orderCreation_setKey_li (r : Rec) (v : Value) :
    orderCreation (setKey r "line_items" v) = orderCreation r := by
  unfold orderCreation
  rw [getKey_setKey_ne r "line_items" "creationDatetime" v (by decide),
    getKey_setKey_ne r "line_items" "creation_datetime" v (by decide),
    getKey_setKey_ne r "line_items" "transaction_date" v (by decide),
    getKey_setKey_ne r "line_items" "created_at" v (by decide)]

theorem orderOptiply_setKey_li (r : Rec) (v : Value) :
    orderOptiply (setKey r "line_items" v) = orderOptiply r := by
  unfold orderOptiply
  rw [getKey_setKey_ne r "line_items" "optiplyId" v (by decide),
    getKey_setKey_ne r "line_items" "optiply_id" v (by decide),
    getKey_setKey_ne r "line_items" "id" v (by decide)]

theorem orderSupplier_setKey_li (r : Rec) (v : Value) :
    orderSupplier (setKey r "line_items" v) = orderSupplier r := by
  unfold orderSupplier
  rw [getKey_setKey_ne r "line_items" "targetSupplierId" v (by decide),
    getKey_setKey_ne r "line_items" "target_supplier_id" v (by decide),
    getKey_setKey_ne r "line_items" "supplier_remoteId" v (by decide)]

/-- The fields an emitted item always carries: the shared normalized
creation datetime, the stringified order id when the order has one, and
the configured default warehouse id. -/
theorem buildLine_emit_fields {cfg : Config} {cd oidv tsv x : Value} {it : Item}
    (h : buildLine cfg cd oidv tsv x = .emit it) :
    it.creationDatetime = cd ∧
    it.optiplyId = (if truthy oidv = true then some (pyStr oidv) else none) ∧
    it.officeId = cfg.default_export_buyOrder_warehouseId := by
  unfold buildLine at h
  repeat' split at h
  all_goals first
    | (injection h with h; subst h; exact ⟨rfl, by simp [*], rfl⟩)
    | exact absurd h (by simp)

/-- Concrete sample values used by witnesses and counterexamples. -/
def okRecSample : Value := .vDict [("items", .vList [.vDict [("optiplyId", .vStr "OPT-9")]])]

def c5rec : Rec :=
  [("line_items", .vList
    [.vDict [("productId", .vInt 5)],
     .vDict [("productId", .vInt 1), ("amount", .vInt 2)],
     .vDict [("product_id", .vInt 3), ("quantity", .vInt 4)]]),
   ("transaction_date", .vStr "2025-08-18T13:35:51.885123+02:00"),
   ("id", .vStr "ORD-9")]

def c6rec : Rec := [("productId", .vInt 9), ("amount", .vInt 0)]

/-! ### Claim C1 -/

/-- Claim C1 counterexample: in the `PrePurchaseOrders` variant there is
no `try`/`except` around the request, so a raised `FatalAPIError`
propagates to the caller instead of being returned as a failed result. -/
theorem upsert_ppo_failure_throws_counterexample :
    upsertPPO okRecSample (.failure "Request to url failed: boom") =
      .error "Request to url failed: boom" := rfl

/-- Claim C1 (amended): only the `BuyOrders` variant converts a raised
request error into `(None, success=false, state \x7b error: text \x7d)`
without throwing; the `PrePurchaseOrders` variant propagates the raised
error to the caller. -/
theorem upsert_failure_state_update (rec : Value) (msg : String)
    (hrec : truthy rec = true) (hmsg : msg ≠ "") :
    upsertBO rec (.failure msg) = ⟨.vNull, false, [("error", msg)]⟩ ∧
    msg.length ≠ 0 ∧
    upsertPPO rec (.failure msg) = .error msg := by
  refine ⟨?_, ?_, ?_⟩
  · simp only [upsertBO, hrec, Bool.not_true, Bool.false_eq_true, if_false, upsertCore]
  · intro hlen
    apply hmsg
    obtain ⟨data⟩ := msg
    simp only [String.length] at hlen
    rw [List.length_eq_zero] at hlen
    subst hlen
    rfl
  · simp only [upsertPPO, hrec, Bool.not_true, Bool.false_eq_true, if_false, upsertCore]

/-- Claim C1 witness at a concrete record and error text. -/
theorem upsert_failure_state_update_witness :
    upsertBO okRecSample (.failure "Request to url failed: boom") =
      ⟨.vNull, false, [("error", "Request to url failed: boom")]⟩ ∧
    ("Request to url failed: boom" : String).length ≠ 0 ∧
    upsertPPO okRecSample (.failure "Request to url failed: boom") =
      .error "Request to url failed: boom" :=
  upsert_failure_state_update okRecSample "Request to url failed: boom" rfl (by decide)

/-! ### Claim C2 -/

/-- Claim C2: the round-trip example — the composite record with a
JSON-encoded single line item, an offset-aware transaction date and the
order id `ORD-1`, processed with no default warehouse configured, emits
exactly one payload with productId 42, amount 3, the UTC-normalized
millisecond datetime, and the stringified order id. -/
theorem buyorders_roundtrip_example :
    processBO ⟨none⟩ sampleNow
      [("line_items", .vStr "[\x7b\"product_remoteId\": 42, \"quantity\": 3\x7d]"),
       ("transaction_date", .vStr "2025-08-18T13:35:51.885123+02:00"),
       ("id", .vStr "ORD-1")] =
    ⟨none, [⟨[⟨42, 3, .vStr "2025-08-18T11:35:51.885Z", some "ORD-1", none, none⟩]⟩],
      none⟩ := rfl

/-! ### Claim C5 -/

/-- Claim C5: a composite record whose three line items build to two
emitted items and one logged skip — with the skipped item in any of the
three positions — yields exactly the two single-item payloads, in their
original order; the loop is not aborted by the skip, and every emitted
item carries the shared normalized creation datetime and, when the order
has one, the stringified order optiplyId. -/
theorem splitter_shared_fields (cfg : Config) (now : DateTime) (r : Rec)
    (x1 x2 x3 : Value) (cd : Value) (ia ib : Item)
    (hli : getKey r "line_items" = .vList [x1, x2, x3])
    (hcd : normalizeCD now (orderCreation r) = .ok cd)
    (hres : [x1, x2, x3].map (buildLine cfg cd (orderOptiply r) (orderSupplier r)) =
        [.emit ia, .emit ib, .skip] ∨
      [x1, x2, x3].map (buildLine cfg cd (orderOptiply r) (orderSupplier r)) =
        [.emit ia, .skip, .emit ib] ∨
      [x1, x2, x3].map (buildLine cfg cd (orderOptiply r) (orderSupplier r)) =
        [.skip, .emit ia, .emit ib]) :
    processBO cfg now r = ⟨none, [⟨[ia]⟩, ⟨[ib]⟩], none⟩ ∧
    ia.creationDatetime = cd ∧ ib.creationDatetime = cd ∧
    (truthy (orderOptiply r) = true →
      ia.optiplyId = some (pyStr (orderOptiply r)) ∧
      ib.optiplyId = some (pyStr (orderOptiply r))) := by
  have hmem : memKey r "line_items" = true := by
    apply memKey_of_get_ne_null
    rw [hli]
    exact fun hh => Value.noConfusion hh
  rcases hres with hres | hres | hres
  · simp only [List.map_cons, List.map_nil, List.cons.injEq, and_true] at hres
    obtain ⟨h1, h2, h3⟩ := hres
    have hfa := buildLine_emit_fields h1
    have hfb := buildLine_emit_fields h2
    refine ⟨?_, hfa.1, hfb.1, fun ho => ⟨?_, ?_⟩⟩
    · simp only [processBO, hmem, Bool.not_true, Bool.and_false, Bool.false_eq_true,
        if_false, splitLineItems, hli, splitParsed, truthy, emitLoop, h1, h2, h3, hcd]
      norm_num
    · rw [hfa.2.1, if_pos ho]
    · rw [hfb.2.1, if_pos ho]
  · simp only [List.map_cons, List.map_nil, List.cons.injEq, and_true] at hres
    obtain ⟨h1, h2, h3⟩ := hres
    have hfa := buildLine_emit_fields h1
    have hfb := buildLine_emit_fields h3
    refine ⟨?_, hfa.1, hfb.1, fun ho => ⟨?_, ?_⟩⟩
    · simp only [processBO, hmem, Bool.not_true, Bool.and_false, Bool.false_eq_true,
        if_false, splitLineItems, hli, splitParsed, truthy, emitLoop, h1, h2, h3, hcd]
      norm_num
    · rw [hfa.2.1, if_pos ho]
    · rw [hfb.2.1, if_pos ho]
  · simp only [List.map_cons, List.map_nil, List.cons.injEq, and_true] at hres
    obtain ⟨h1, h2, h3⟩ := hres
    have hfa := buildLine_emit_fields h2
    have hfb := buildLine_emit_fields h3
    refine ⟨?_, hfa.1, hfb.1, fun ho => ⟨?_, ?_⟩⟩
    · simp only [processBO, hmem, Bool.not_true, Bool.and_false, Bool.false_eq_true,
        if_false, splitLineItems, hli, splitParsed, truthy, emitLoop, h1, h2, h3, hcd]
      norm_num
    · rw [hfa.2.1, if_pos ho]
    · rw [hfb.2.1, if_pos ho]

/-- Claim C5 witness: the concrete three-line-item record whose FIRST
item is missing its amount still emits both following payloads — the
skip does not abort the loop — with shared datetime and order id. -/
theorem splitter_shared_fields_witness :
    processBO ⟨none⟩ sampleNow c5rec =
      ⟨none, [⟨[⟨1, 2, .vStr "2025-08-18T11:35:51.885Z", some "ORD-9", none, none⟩]⟩,
              ⟨[⟨3, 4, .vStr "2025-08-18T11:35:51.885Z", some "ORD-9", none, none⟩]⟩],
        none⟩ :=
  (splitter_shared_fields ⟨none⟩ sampleNow c5rec
    (.vDict [("productId", .vInt 5)])
    (.vDict [("productId", .vInt 1), ("amount", .vInt 2)])
    (.vDict [("product_id", .vInt 3), ("quantity", .vInt 4)])
    (.vStr "2025-08-18T11:35:51.885Z")
    ⟨1, 2, .vStr "2025-08-18T11:35:51.885Z", some "ORD-9", none, none⟩
    ⟨3, 4, .vStr "2025-08-18T11:35:51.885Z", some "ORD-9", none, none⟩
    rfl rfl (Or.inr (Or.inr rfl))).1

/-! ### Claim C6 -/

/-- Claim C6: a direct record (no truthy `line_items`) whose amount alias
chain resolves falsy — including the explicit `amount: 0` edge case — or
whose productId alias chain resolves falsy, is dropped: the preprocessor
returns `None` without raising. -/
theorem ppo_drops_falsy_pid_amount (now : DateTime) (r : Rec)
    (hli : truthy (getKey r "line_items") = false)
    (h : truthy (directPid r) = false ∨ truthy (directAmount r) = false) :
    preprocessPPO now r = .ok none := by
  have hcond : (memKey r "line_items" && truthy (getKey r "line_items")) = false := by
    rw [hli, Bool.and_false]
  simp only [preprocessPPO, hcond, Bool.false_eq_true, if_false, directBuildPPO]
  rcases h with h | h
  · simp [h]
  · cases hpid : truthy (directPid r) with
    | false => simp [hpid]
    | true => simp [hpid, h]

/-- Claim C6 witness: the record with `productId: 9, amount: 0` is
dropped because zero is falsy. -/
theorem ppo_drops_falsy_pid_amount_witness :
    preprocessPPO sampleNow c6rec = .ok none :=
  ppo_drops_falsy_pid_amount sampleNow c6rec rfl (Or.inr rfl)

/-! ### Claim C7 -/

/-- Claim C7: a record with a truthy `line_items` field is never treated
as a direct item (the PrePurchaseOrders preprocessor returns `None`);
records without one are classified direct (the preprocessor proceeds to
the direct item construction); and in the BuyOrders sink a record
carrying `line_items` always takes the splitting path. -/
theorem record_shape_classification (cfg : Config) (now : DateTime) (r : Rec) :
    (truthy (getKey r "line_items") = true → preprocessPPO now r = .ok none) ∧
    (truthy (getKey r "line_items") = false →
      preprocessPPO now r = directBuildPPO now r) ∧
    (memKey r "line_items" = true → processBO cfg now r = splitLineItems cfg now r) := by
  refine ⟨?_, ?_, ?_⟩
  · intro h
    have hmem : memKey r "line_items" = true := by
      apply memKey_of_get_ne_null
      intro hn
      rw [hn] at h
      exact absurd h (by simp [truthy])
    simp only [preprocessPPO, hmem, h, Bool.and_self, if_true]
  · intro h
    simp only [preprocessPPO, h, Bool.and_false, Bool.false_eq_true, if_false]
  · intro h
    simp only [processBO, h, Bool.not_true, Bool.and_false, Bool.false_eq_true, if_false]

/-- Claim C7 witness: a record with non-empty `line_items` is skipped by
the direct-shape preprocessor. -/
theorem record_shape_classification_witness :
    preprocessPPO sampleNow [("line_items", .vStr "x")] = .ok none :=
  (record_shape_classification ⟨none⟩ sampleNow [("line_items", .vStr "x")]).1 rfl

/-! ### Claim C8 -/

/-- Claim C8 (amended): on a success status (200, 201, 204),
`upsert_record` returns the top-level `id` of the response body when it
is present and truthy; a missing, unparseable, or falsy id (such as `0`)
triggers the fallback to the first submitted item's `optiplyId`; when the
payload has no truthy `items` the body id (i.e. `None` when absent)
is returned unchanged.  Both sink variants behave identically here. -/
theorem upsert_success_id_extraction (rec : Value) (status : Nat)
    (body : Except String Value) (hrec : truthy rec = true)
    (hst : (status == 200 || status == 201 || status == 204) = true) :
    (truthy (responseBodyId body) = true →
      upsertPPO rec (.success status body) = .ok ⟨responseBodyId body, true, []⟩ ∧
      upsertBO rec (.success status body) = ⟨responseBodyId body, true, []⟩) ∧
    (truthy (responseBodyId body) = false →
      ∀ first restItems, lineGet rec "items" = .ok (.vList (first :: restItems)) →
      ∀ oid, lineGet first "optiplyId" = .ok oid →
      upsertPPO rec (.success status body) = .ok ⟨oid, true, []⟩ ∧
      upsertBO rec (.success status body) = ⟨oid, true, []⟩) ∧
    (truthy (responseBodyId body) = false →
      ∀ itemsV, lineGet rec "items" = .ok itemsV → truthy itemsV = false →
      upsertPPO rec (.success status body) = .ok ⟨responseBodyId body, true, []⟩ ∧
      upsertBO rec (.success status body) = ⟨responseBodyId body, true, []⟩) := by
  refine ⟨fun hid => ?_, fun hid first restItems hitems oid hoid => ?_,
    fun hid itemsV hitems hfal => ?_⟩
  · constructor <;>
      simp only [upsertPPO, upsertBO, hrec, Bool.not_true, Bool.false_eq_true, if_false,
        upsertCore, hst, if_true, hid]
  · have htr : truthy (Value.vList (first :: restItems)) = true := by
      simp [truthy]
    constructor <;>
      simp only [upsertPPO, upsertBO, hrec, Bool.not_true, Bool.false_eq_true, if_false,
        upsertCore, hst, if_true, hid, hitems, htr, hoid]
  · constructor <;>
      simp only [upsertPPO, upsertBO, hrec, Bool.not_true, Bool.false_eq_true, if_false,
        upsertCore, hst, if_true, hid, hitems, hfal]

/-- Claim C8 counterexample: a response body carrying the present but
falsy id `0` does not yield `0` — the code falls back to the first
item's `optiplyId`. -/
theorem upsert_id_zero_counterexample :
    upsertPPO okRecSample (.success 200 (.ok (.vDict [("id", .vInt 0)]))) =
      .ok ⟨.vStr "OPT-9", true, []⟩ ∧
    Value.vStr "OPT-9" ≠ Value.vInt 0 :=
  ⟨rfl, fun h => Value.noConfusion h⟩

/-- Claim C8 witness: a truthy body id is returned as the assigned id by
both sinks. -/
theorem upsert_success_id_extraction_witness :
    upsertPPO okRecSample (.success 200 (.ok (.vDict [("id", .vInt 7)]))) =
      .ok ⟨.vInt 7, true, []⟩ ∧
    upsertBO okRecSample (.success 200 (.ok (.vDict [("id", .vInt 7)]))) =
      ⟨.vInt 7, true, []⟩ :=
  (upsert_success_id_extraction okRecSample 200 (.ok (.vDict [("id", .vInt 7)]))
    rfl rfl).1 rfl

/-! ### Claim C9 -/

/-- Claim C9: resolution of a string-valued `line_items` in the splitting
path — a whitespace-only string, unparseable JSON, or a falsy parsed
value (empty collection, null) each yield zero emitted payloads with no
exception; a truthy parsed non-list value is wrapped into a one-element
list and processed exactly like a record carrying that list. -/
theorem split_line_items_resolution (cfg : Config) (now : DateTime) (r : Rec) (s : String)
    (hget : getKey r "line_items" = .vStr s) :
    ((pyStrip s.toList).length = 0 → processBO cfg now r = ⟨none, [], none⟩) ∧
    (∀ e, jsonLoads s = .error e → processBO cfg now r = ⟨none, [], none⟩) ∧
    (∀ v, jsonLoads s = .ok v → truthy v = false →
      processBO cfg now r = ⟨none, [], none⟩) ∧
    (∀ v, jsonLoads s = .ok v → truthy v = true → (∀ l, v ≠ .vList l) →
      (pyStrip s.toList).length ≠ 0 →
      processBO cfg now r = processBO cfg now (setKey r "line_items" (.vList [v]))) := by
  have hmem : memKey r "line_items" = true := by
    apply memKey_of_get_ne_null
    rw [hget]
    exact fun hh => Value.noConfusion hh
  have hsplit : processBO cfg now r = splitLineItems cfg now r := by
    simp only [processBO, hmem, Bool.not_true, Bool.and_false, Bool.false_eq_true, if_false]
  refine ⟨fun h0 => ?_, fun e he => ?_, fun v hv hfal => ?_, fun v hv htr hnl h0 => ?_⟩
  · have h0' : pyStrip s.data = [] := List.length_eq_zero.mp h0
    rw [hsplit]
    simp [splitLineItems, hget, h0']
  · rw [hsplit]
    by_cases h0 : pyStrip s.data = []
    · simp [splitLineItems, hget, h0]
    · simp [splitLineItems, hget, h0, he]
  · rw [hsplit]
    by_cases h0 : pyStrip s.data = []
    · simp [splitLineItems, hget, h0]
    · simp [splitLineItems, hget, h0, hv, splitParsed, hfal]
  · have h0' : ¬pyStrip s.data = [] := fun hh => h0 (congrArg List.length hh)
    have hlit : (match v with | Value.vList l => l | _ => [v]) = [v] := by
      cases v with
      | vList l => exact absurd rfl (hnl l)
      | vNull => rfl
      | vBool b => rfl
      | vInt n => rfl
      | vStr s2 => rfl
      | vDict kvs => rfl
      | vDateTime d tz => rfl
    have e1 : processBO cfg now r = splitParsed cfg now r v := by
      rw [hsplit]
      simp [splitLineItems, hget, h0', hv]
    have e2 : processBO cfg now (setKey r "line_items" (.vList [v])) =
        splitParsed cfg now (setKey r "line_items" (.vList [v])) (.vList [v]) := by
      simp only [processBO, memKey_setKey_self, Bool.not_true, Bool.and_false,
        Bool.false_eq_true, if_false, splitLineItems, getKey_setKey_self]
    have htl : truthy (.vList [v]) = true := rfl
    rw [e1, e2]
    simp only [splitParsed, htr, htl, Bool.not_true, Bool.false_eq_true, if_false, hlit,
      orderCreation_setKey_li, orderOptiply_setKey_li, orderSupplier_setKey_li]

/-- Claim C9 witness: a whitespace-only `line_items` string yields zero
payloads and no exception. -/
theorem split_line_items_resolution_witness :
    processBO ⟨none⟩ sampleNow [("line_items", .vStr " ")] = ⟨none, [], none⟩ :=
  (split_line_items_resolution ⟨none⟩ sampleNow [("line_items", .vStr " ")] " " rfl).1 rfl

/-! ### Claim C10 -/

/-- Claim C10: when the response validator lets a response through with a
status outside 200/201/204, both sinks report success without
attempting id extraction: the result is `(None, True, empty updates)`. -/
theorem upsert_nonstandard_status_success (rec : Value) (status : Nat)
    (body : Except String Value) (hrec : truthy rec = true)
    (hst : (status == 200 || status == 201 || status == 204) = false) :
    upsertPPO rec (.success status body) = .ok ⟨.vNull, true, []⟩ ∧
    upsertBO rec (.success status body) = ⟨.vNull, true, []⟩ := by
  constructor <;>
    simp only [upsertPPO, upsertBO, hrec, Bool.not_true, Bool.false_eq_true, if_false,
      upsertCore, hst]

/-- Claim C10 witness: a 202 response is reported as a success with no id
even though the body carries one. -/
theorem upsert_nonstandard_status_success_witness :
    upsertPPO okRecSample (.success 202 (.ok (.vDict [("id", .vInt 7)]))) =
      .ok ⟨.vNull, true, []⟩ ∧
    upsertBO okRecSample (.success 202 (.ok (.vDict [("id", .vInt 7)]))) =
      ⟨.vNull, true, []⟩ :=
  upsert_nonstandard_status_success okRecSample 202 (.ok (.vDict [("id", .vInt 7)])) rfl rfl

end TargetVendit
